import Mathlib

/-
Verification development for the throttled, write-coalescing persistent
document store (`JsonDb` in `src/cli/utils/json-db/index.ts`) of the
bsky-follower-tracker repository.

The embedding models:
  * JSON values as produced by `JSON.parse` (mutual inductive `JVal`,
    `JArr`, `JFields`);
  * the deep-merge engine `assignDeepWithDelete` (the `super-assign`
    library configured with `deleteValue: null`; the library source is not
    part of the repository, so the merge is modelled from the spec);
  * the load/validation path (`JsonDb.read`, `JsonDb.isValidData`,
    constructor);
  * the write scheduler (`JsonDb.store`, `JsonDb.sync`, `JsonDb.flush`,
    `JsonDb.update`) as an explicit state machine driven by events
    (update/flush calls, timer firings, write completions), with an
    observation log recording write starts, write completions, and
    promise settlements.
-/

set_option linter.unusedVariables false

namespace JsonDbModel

mutual
/-- A JSON value, as produced by `JSON.parse`. `null` is the delete
sentinel of the merge engine (`deleteValue: null` in the source). -/
inductive JVal where
  | null : JVal
  | bool (b : Bool) : JVal
  | num (n : Int) : JVal
  | str (s : String) : JVal
  | arr (xs : JArr) : JVal
  | obj (fs : JFields) : JVal

/-- A JSON array (list of values). -/
inductive JArr where
  | nil : JArr
  | cons (hd : JVal) (tl : JArr) : JArr

/-- The fields of a JSON object, in insertion order, as key/value pairs. -/
inductive JFields where
  | nil : JFields
  | cons (key : String) (val : JVal) (tl : JFields) : JFields
end

/-- Property lookup on an object's field list: the value bound to `k`,
or `none` when the key is absent (JS `undefined`). -/
def lookupField : JFields → String → Option JVal
  | JFields.nil, _ => none
  | JFields.cons k v rest, key => if k = key then some v else lookupField rest key

/-- Delete the property `key` from a field list (JS `delete obj[key]`). -/
def removeField : JFields → String → JFields
  | JFields.nil, _ => JFields.nil
  | JFields.cons k v rest, key =>
      if k = key then removeField rest key
      else JFields.cons k v (removeField rest key)

/-- Set property `key` to `val` (JS `obj[key] = val`): overwrites in place
when the key exists, appends otherwise. -/
def setField : JFields → String → JVal → JFields
  | JFields.nil, key, val => JFields.cons key val JFields.nil
  | JFields.cons k v rest, key, val =>
      if k = key then JFields.cons key val rest
      else JFields.cons k v (setField rest key val)

/-- The field list of an optional value when it is an object, and the
empty field list otherwise. -/
def objFieldsOf : Option JVal → JFields
  | some (JVal.obj fs) => fs
  | _ => JFields.nil

mutual
/-- Modelled from the spec: the effect of one field `(k, v)` of a partial
update on the fields `df` of the target document, for the merge engine
`assignDeepWithDelete` (the `super-assign` library configured with
`deleteValue: null`; the library's implementation is not part of this
repository).  Per the spec: a field whose value is the delete sentinel
`null` is removed; a nested mapping value is merged recursively into the
existing field (when the existing value is not a mapping, the old value is
replaced, i.e. the update's mapping is merged into an empty one); any
other value (scalar or sequence) replaces the field wholesale. -/
def applyField (df : JFields) (k : String) : JVal → JFields
  | JVal.null => removeField df k
  | JVal.obj vf =>
      setField df k (JVal.obj (applyFields (objFieldsOf (lookupField df k)) vf))
  | v => setField df k v

/-- Modelled from the spec: apply every field of the partial update `uf`
to the document fields `df`, in order. Fields of `df` not mentioned in
`uf` are untouched. -/
def applyFields (df : JFields) : JFields → JFields
  | JFields.nil => df
  | JFields.cons k v rest => applyFields (applyField df k v) rest
end

/-! ## Persistence layer: validation and load (`JsonDb.isValidData`, `JsonDb.read`, constructor) -/

/-- JS falsiness of a `JSON.parse` result, used by the `if (!raw)` guard of
`JsonDb.isValidData`. -/
def jFalsy : JVal → Bool
  | JVal.null => true
  | JVal.bool b => !b
  | JVal.num n => n == 0
  | JVal.str s => s == ""
  | _ => false

/-- JS property access `v[k]` on a `JSON.parse` result: a binding for
objects, `undefined` (here `none`) for every other value. Access on `null`
would throw in JS; `isValidData` models that throw separately. -/
def getProp : JVal → String → Option JVal
  | JVal.obj fs, k => lookupField fs k
  | _, _ => none

/-- Whether property `k` of `v` is a number (`typeof v[k] === 'number'`). -/
def isNumProp (v : JVal) (k : String) : Bool :=
  match getProp v k with
  | some (JVal.num _) => true
  | _ => false

/-- The metadata record of `JsonDb`: three millisecond timestamps. -/
structure Meta where
  createTime : Int
  lastUpdate : Int
  lastSync : Int
deriving Repr, DecidableEq

/-- `JsonDb.isValidData` on a parsed value: `Except.error` models the JS
`TypeError` thrown by `meta.createTime` when `raw.meta` is `undefined` or
`null` (the caller `read` catches it); `Except.ok b` is a normal return. -/
def isValidData (raw : JVal) : Except Unit Bool :=
  if jFalsy raw then Except.ok false
  else
    match getProp raw "meta" with
    | none => Except.error ()
    | some JVal.null => Except.error ()
    | some m =>
        Except.ok (isNumProp m "createTime" && isNumProp m "lastSync" &&
          isNumProp m "lastUpdate")

/-- Extract the metadata of a stored record (defined when `isValidData`
returned `ok true`; the `0` defaults are never reached on valid data). -/
def metaOf (raw : JVal) : Meta :=
  let m := (getProp raw "meta").getD JVal.null
  { createTime := (match getProp m "createTime" with
      | some (JVal.num n) => n | _ => 0)
    lastUpdate := (match getProp m "lastUpdate" with
      | some (JVal.num n) => n | _ => 0)
    lastSync := (match getProp m "lastSync" with
      | some (JVal.num n) => n | _ => 0) }

/-- Construction options of `JsonDb` after merging with the defaults
(`syncThrottle: 5000, initialData: {}, throwIfNotExists: false`).
`initialData = none` models the corner case of an explicitly `undefined`
`initialData` overriding the default via object spread. `prettify` and the
hooks do not influence any claim and are omitted. -/
structure InitOpts where
  syncThrottle : Int
  initialData : Option JFields
  throwIfNotExists : Bool

/-- The file content seen by `JsonDb.read`: `none` when the file does not
exist; `some none` when it exists but `JSON.parse` throws; `some (some v)`
when it parses to `v`. -/
abbrev FileContent := Option (Option JVal)

/-- `JsonDb.read`: returns the stored record's data and metadata, `ok none`
when the file is absent, unparsable or structurally invalid (the `catch`
swallows both the parse error and the `isValidData` TypeError), and
`Except.error` only for the `throwIfNotExists` configuration error.
A stored record without a `data` property yields `data = none`
(JS `undefined`). -/
def readDb (opts : InitOpts) (file : FileContent) :
    Except String (Option (Option JVal × Meta)) :=
  match file with
  | none =>
      if opts.throwIfNotExists then Except.error "File doesn't exist"
      else Except.ok none
  | some none => Except.ok none
  | some (some raw) =>
      match isValidData raw with
      | Except.error _ => Except.ok none
      | Except.ok false => Except.ok none
      | Except.ok true => Except.ok (some (getProp raw "data", metaOf raw))

/-! ## The write scheduler (`JsonDb.store`, `JsonDb.sync`) as a state machine -/

/-- The `ScheduledSync` ticket of the source: `timer` is the absolute time
an armed timeout is due to fire (`none` until armed), `doItNow` the urgency
flag, and `batch` identifies the shared deferred promise every caller that
attached to this ticket will observe settling together. -/
structure Sched where
  timer : Option Int
  doItNow : Bool
  batch : Nat
deriving Repr, DecidableEq

/-- A write in flight (`this.writing === true` in the source): the
document snapshot serialized at write start, the batch detached from
`this.scheduled` when the write began (if any), and the start time. -/
structure Flight where
  content : JVal
  batch : Option Nat
  start : Int

/-- The state of a `JsonDb` instance after its initial load. `payload`
is the in-memory document, `writing` the in-flight write (the `writing`
flag plus the data the suspended `store` frame holds), `scheduled` the
single optional `ScheduledSync` ticket, `nextBatch` a counter minting
fresh batch identities. -/
structure Db where
  throttle : Int
  payload : JVal
  meta : Meta
  writing : Option Flight
  scheduled : Option Sched
  nextBatch : Nat

/-- What a call to `store` returned to its caller: the shared promise of a
batch, or `started` when this call executed the write itself (the caller's
promise then resolves when `store`'s own frame finishes; note the source
resolves it even when the write failed, because the `catch` only forwards
the error to the detached batch's deferred). -/
inductive StoreRet where
  | attached (batch : Nat) : StoreRet
  | started : StoreRet
deriving Repr, DecidableEq

/-- Observable events recorded while the state machine runs: a write
starting (with its wall-clock time, whether the triggering `store` call
was urgent, the serialized document and the detached batch), a write
finishing (success flag of `writeFile`), a batch's deferred settling
(resolve on `true`, reject on `false`), and the value a `flush` call
returned. -/
inductive LogEntry where
  | writeStart (now : Int) (urgent : Bool) (content : JVal) (batch : Option Nat) : LogEntry
  | writeEnd (now : Int) (ok : Bool) : LogEntry
  | settle (batch : Nat) (ok : Bool) : LogEntry
  | flushRet (r : StoreRet) : LogEntry

/-- The fall-through tail of `JsonDb.store`: detach `this.scheduled`,
clear its timer, set `writing`, and run `sync()`, whose first synchronous
statement sets `meta.lastSync = Date.now()` before `writeFile` is awaited.
The written content is the payload at this instant. -/
def execWrite (urgent : Bool) (now : Int) (s : Db) : Db × StoreRet × List LogEntry :=
  ({ s with
      scheduled := none
      meta := { s.meta with lastSync := now }
      writing := some { content := s.payload, batch := s.scheduled.map Sched.batch,
                        start := now } },
   StoreRet.started,
   [LogEntry.writeStart now urgent s.payload (s.scheduled.map Sched.batch)])

/-- `JsonDb.store(doItNow)` up to its first suspension point: the branch
structure mirrors the source line by line. While a write is in flight the
request coalesces into the single `scheduled` ticket (merging urgency, or
creating the ticket with its timer unarmed). Otherwise a non-urgent
request while scheduled just returns the shared promise; an urgent one
falls through with `waitTime = 0`. In the idle unscheduled case the
throttle wait `lastSync + syncThrottle - now` either arms a timer or, when
non-positive, lets the write execute immediately. -/
def storeCall (urgent : Bool) (now : Int) (s : Db) : Db × StoreRet × List LogEntry :=
  match s.writing with
  | some _ =>
      match s.scheduled with
      | some sch =>
          ({ s with scheduled := some { sch with doItNow := sch.doItNow || urgent } },
           StoreRet.attached sch.batch, [])
      | none =>
          ({ s with
              scheduled := some { timer := none, doItNow := urgent, batch := s.nextBatch }
              nextBatch := s.nextBatch + 1 },
           StoreRet.attached s.nextBatch, [])
  | none =>
      match s.scheduled with
      | some sch =>
          if urgent then execWrite urgent now s
          else (s, StoreRet.attached sch.batch, [])
      | none =>
          let waitTime : Int := if urgent then 0 else s.meta.lastSync + s.throttle - now
          if waitTime > 0 then
            ({ s with
                scheduled := some { timer := some (now + waitTime), doItNow := urgent,
                                    batch := s.nextBatch }
                nextBatch := s.nextBatch + 1 },
             StoreRet.attached s.nextBatch, [])
          else execWrite urgent now s

/-- Apply an object-shaped partial update to the payload, as
`assignDeepWithDelete(this.payload, data)` does in `JsonDb.update`
(`Data extends object`, so the payload is an object whenever the store was
initialised normally; a non-object payload read back from a foreign file
is replaced, per the spec's type-mismatch rule). -/
def applyToPayload (payload : JVal) (uf : JFields) : JVal :=
  JVal.obj (applyFields (objFieldsOf (some payload)) uf)

/-- The events driving a `JsonDb` instance: an `update(data)` call, a
`flush()` call, an armed timeout firing (which invokes the bound
`this.store` with no argument), and the settling of the `writeFile`
promise of the write in flight (`ok` is success). Each carries the
wall-clock time `Date.now()` observes while it runs. -/
inductive Ev where
  | update (uf : JFields) (now : Int) : Ev
  | flush (now : Int) : Ev
  | timer (now : Int) : Ev
  | complete (ok : Bool) (now : Int) : Ev

/-- One event of the cooperative single-threaded execution.
`update` merges synchronously, stamps `lastUpdate` and calls
`store()`; `flush` calls `store(true)` and records what it got back;
a firing timer calls `store()` with no argument (hence non-urgent); the
completion of `writeFile` runs the rest of the suspended `store` frame:
log the write's end, settle the detached batch's deferred (resolve on
success, reject on failure), clear `writing`, then handle a ticket created
during the write: urgent tickets trigger `store(true)` at once, non-urgent
unarmed ones get their timer armed for `lastSync + syncThrottle`. -/
def step (s : Db) : Ev → Db × List LogEntry
  | Ev.update uf now =>
      let s1 := { s with payload := applyToPayload s.payload uf,
                         meta := { s.meta with lastUpdate := now } }
      let r := storeCall false now s1
      (r.1, r.2.2)
  | Ev.flush now =>
      let r := storeCall true now s
      (r.1, r.2.2 ++ [LogEntry.flushRet r.2.1])
  | Ev.timer now =>
      let r := storeCall false now s
      (r.1, r.2.2)
  | Ev.complete ok now =>
      match s.writing with
      | none => (s, [])
      | some w =>
          let settled := match w.batch with
            | some b => [LogEntry.settle b ok]
            | none => []
          let l0 := LogEntry.writeEnd now ok :: settled
          let s1 := { s with writing := none }
          match s1.scheduled with
          | none => (s1, l0)
          | some sch =>
              if sch.doItNow then
                let r := storeCall true now s1
                (r.1, l0 ++ r.2.2)
              else if sch.timer = none then
                let armed : Sched := { sch with timer := some (s1.meta.lastSync + s1.throttle) }
                ({ s1 with scheduled := some armed }, l0)
              else (s1, l0)

/-- Run a sequence of events from a state, concatenating the logs. -/
def run (s : Db) : List Ev → Db × List LogEntry
  | [] => (s, [])
  | e :: rest =>
      let r1 := step s e
      let r2 := run r1.1 rest
      (r2.1, r1.2 ++ r2.2)

/-- The `JsonDb` constructor followed by the `isInitDone` continuation:
metadata starts as `{createTime: Date.now(), lastSync: 0, lastUpdate: 0}`
and the payload as `{}`; a successful read overwrites all three timestamps
and the payload with the stored record (a record without `data` leaves the
payload as JS `undefined`, modelled as `null`); a missing/invalid file
keeps the metadata and installs `initialData` (when not `undefined`). -/
def mkDb (opts : InitOpts) (now : Int) (file : FileContent) : Except String Db :=
  match readDb opts file with
  | Except.error e => Except.error e
  | Except.ok none =>
      Except.ok
        { throttle := opts.syncThrottle
          payload := JVal.obj (opts.initialData.getD JFields.nil)
          meta := { createTime := now, lastUpdate := 0, lastSync := 0 }
          writing := none
          scheduled := none
          nextBatch := 0 }
  | Except.ok (some r) =>
      Except.ok
        { throttle := opts.syncThrottle
          payload := r.1.getD JVal.null
          meta := r.2
          writing := none
          scheduled := none
          nextBatch := 0 }

/-! ## Observation helpers -/

/-- The write starts of a log: `(time, urgentFlag)` pairs, in order. -/
def startsOf : List LogEntry → List (Int × Bool)
  | [] => []
  | LogEntry.writeStart t u _ _ :: rest => (t, u) :: startsOf rest
  | _ :: rest => startsOf rest

/-- The write starts of a log with their contents and batches. -/
def fullStartsOf : List LogEntry → List (Int × Bool × JVal × Option Nat)
  | [] => []
  | LogEntry.writeStart t u c b :: rest => (t, u, c, b) :: fullStartsOf rest
  | _ :: rest => fullStartsOf rest

/-- The batch settlements of a log: `(batch, ok)` pairs, in order. -/
def settlesOf : List LogEntry → List (Nat × Bool)
  | [] => []
  | LogEntry.settle b ok :: rest => (b, ok) :: settlesOf rest
  | _ :: rest => settlesOf rest

/-- Every start in the list that is non-urgent happens at least `thr`
after the preceding start (`prev` for the first element). -/
def gapFromB (thr : Int) (prev : Int) : List (Int × Bool) → Bool
  | [] => true
  | (t, u) :: rest => (u || decide (thr ≤ t - prev)) && gapFromB thr t rest

/-- Adjacent write starts: every non-urgent start happens at least `thr`
after the start before it. -/
def gapChainB (thr : Int) : List (Int × Bool) → Bool
  | [] => true
  | (t, _) :: rest => gapFromB thr t rest

/-- Whether a value is the delete sentinel `null`. -/
def isNullB : JVal → Bool
  | JVal.null => true
  | _ => false

/-- The keys of a field list are pairwise distinct. -/
def nodupKeysB : JFields → Bool
  | JFields.nil => true
  | JFields.cons k _ rest => !(lookupField rest k).isSome && nodupKeysB rest

mutual
/-- No object field reachable through mappings only (not descending into
sequences) holds the value `null`. -/
def noNullVal : JVal → Bool
  | JVal.obj fs => noNullFields fs
  | _ => true

/-- Field-list version of `noNullVal`. -/
def noNullFields : JFields → Bool
  | JFields.nil => true
  | JFields.cons _ v rest => !(isNullB v) && noNullVal v && noNullFields rest
end

mutual
/-- Some object field anywhere in the value, including inside sequences,
holds the value `null`. -/
def containsNull : JVal → Bool
  | JVal.obj fs => containsNullF fs
  | JVal.arr xs => containsNullA xs
  | _ => false

/-- Array version of `containsNull`. -/
def containsNullA : JArr → Bool
  | JArr.nil => false
  | JArr.cons v rest => containsNull v || containsNullA rest

/-- Field-list version of `containsNull`. -/
def containsNullF : JFields → Bool
  | JFields.nil => false
  | JFields.cons _ v rest => isNullB v || containsNull v || containsNullF rest
end

/-! ## Concrete instances used by the claims -/

/-- A sample document: `{keep: 1, del: 2, nest: {x: 3}}`. -/
def sampleDoc : JFields :=
  JFields.cons "keep" (JVal.num 1)
    (JFields.cons "del" (JVal.num 2)
      (JFields.cons "nest" (JVal.obj (JFields.cons "x" (JVal.num 3) JFields.nil))
        JFields.nil))

/-- A sample update: `{del: null, nest: {y: 4}}`. -/
def sampleUpd : JFields :=
  JFields.cons "del" JVal.null
    (JFields.cons "nest" (JVal.obj (JFields.cons "y" (JVal.num 4) JFields.nil))
      JFields.nil)

/-- The update `{a: [{b: null}]}`: a `null` hidden inside a sequence value,
which the merge engine copies wholesale. -/
def nullInArrayUpd : JFields :=
  JFields.cons "a"
    (JVal.arr (JArr.cons (JVal.obj (JFields.cons "b" JVal.null JFields.nil)) JArr.nil))
    JFields.nil

/-- Options of the spec's scenarios: `syncThrottleMs = 100`, empty initial
document, `throwIfNotExists` off. -/
def throttledOpts : InitOpts :=
  { syncThrottle := 100, initialData := some JFields.nil, throwIfNotExists := false }

/-- A freshly constructed store over a non-existing file with the options
above, constructed at time 900 (`mkDb throttledOpts 900 none`). -/
def freshDb : Db :=
  { throttle := 100
    payload := JVal.obj JFields.nil
    meta := { createTime := 900, lastUpdate := 0, lastSync := 0 }
    writing := none
    scheduled := none
    nextBatch := 0 }

/-- The update `{a: 1}`. -/
def updA1 : JFields := JFields.cons "a" (JVal.num 1) JFields.nil

/-- The update `{a: 2, b: 3}`. -/
def updA2B3 : JFields :=
  JFields.cons "a" (JVal.num 2) (JFields.cons "b" (JVal.num 3) JFields.nil)

/-- The C2 scenario: `update({a:1})`, then immediately `update({a:2,b:3})`
and `flush()` (all in the same tick, at time 1000), then the two
`writeFile` completions. -/
def scenarioC2 : List Ev :=
  [Ev.update updA1 1000, Ev.update updA2B3 1000, Ev.flush 1000,
   Ev.complete true 1010, Ev.complete true 1020]

/-- The C3 scenario: a non-urgent write starting at 1000 and completing at
1050, then an `update` at 1100 — past the start-anchored throttle window
(`lastSync = 1000`, throttle 100) but only 50ms after the completion. -/
def scenarioC3 : List Ev :=
  [Ev.update updA1 1000, Ev.complete true 1050,
   Ev.update updA2B3 1100, Ev.complete true 1150]

/-- The C4 scenario: a `flush()` on an idle store with nothing scheduled,
whose `writeFile` fails. -/
def scenarioC4 : List Ev := [Ev.flush 1000, Ev.complete false 1010]

/-- A sequence of `store` calls (urgency flag and wall-clock time of
each), applied back to back: the returned values callers observe and the
concatenated log. -/
def applyReqs (s : Db) : List (Bool × Int) → Db × List StoreRet × List LogEntry
  | [] => (s, [], [])
  | (u, n) :: rest =>
      let r := storeCall u n s
      let r2 := applyReqs r.1 rest
      (r2.1, r.2.1 :: r2.2.1, r.2.2 ++ r2.2.2)

/-- Whether the parsed file content is a structurally valid stored record
(`none` is a parse failure). -/
def parsedOk : Option JVal → Bool
  | none => false
  | some raw =>
      match isValidData raw with
      | Except.ok true => true
      | _ => false

/-- The parsed content `{notMeta: true}` of the spec's corrupt-file
scenario. -/
def notMetaRaw : JVal := JVal.obj (JFields.cons "notMeta" (JVal.bool true) JFields.nil)

/-- A stored record `{meta: {createTime: ct, lastUpdate: lu, lastSync: ls},
data: d}` as parsed from a valid file. -/
def storedRaw (ct lu ls : Int) (d : JVal) : JVal :=
  JVal.obj
    (JFields.cons "meta"
      (JVal.obj (JFields.cons "createTime" (JVal.num ct)
        (JFields.cons "lastUpdate" (JVal.num lu)
          (JFields.cons "lastSync" (JVal.num ls) JFields.nil))))
      (JFields.cons "data" d JFields.nil))

/-- The store state `mkDb` produces from a valid stored record. -/
def loadedDb (opts : InitOpts) (ct lu ls : Int) (d : JVal) : Db :=
  { throttle := opts.syncThrottle
    payload := d
    meta := { createTime := ct, lastUpdate := lu, lastSync := ls }
    writing := none
    scheduled := none
    nextBatch := 0 }

/-- An idle store state (no write in flight, nothing scheduled). -/
def idleDb (pl : JVal) (m : Meta) (nb : Nat) (thr : Int) : Db :=
  { throttle := thr, payload := pl, meta := m,
    writing := none, scheduled := none, nextBatch := nb }

/-- The state while the direct write started at `now` from
`idleDb pl m nb thr` is in flight. -/
def directWritingDb (pl : JVal) (m : Meta) (nb : Nat) (thr now : Int) : Db :=
  { throttle := thr, payload := pl, meta := { m with lastSync := now },
    writing := some { content := pl, batch := none, start := now },
    scheduled := none, nextBatch := nb }

/-- The state after that in-flight write completed (successfully or not):
back to idle, `lastSync` still stamped with the write's start time. -/
def afterWriteDb (pl : JVal) (m : Meta) (nb : Nat) (thr now : Int) : Db :=
  { throttle := thr, payload := pl, meta := { m with lastSync := now },
    writing := none, scheduled := none, nextBatch := nb }

/-- A store with a write in flight and nothing scheduled yet (the C1
witness state). -/
def busyDb : Db :=
  { freshDb with
      writing := some { content := JVal.obj JFields.nil, batch := none, start := 950 } }

/-- Two requests (one plain update, one urgent flush) arriving while the
`busyDb` write is in flight. -/
def busyReqs : List (Bool × Int) := [(false, 1000), (true, 1000)]

/-! ## Lemmas about the field operations -/

theorem lookup_setField_self : ∀ (df : JFields) (k : String) (v : JVal),
    lookupField (setField df k v) k = some v
  | JFields.nil, k, v => by simp [setField, lookupField]
  | JFields.cons k0 v0 rest, k, v => by
      by_cases h : k0 = k <;>
        simp [setField, lookupField, h, lookup_setField_self rest k v]

theorem lookup_setField_ne : ∀ (df : JFields) (k : String) (v : JVal) (k' : String),
    k ≠ k' → lookupField (setField df k v) k' = lookupField df k'
  | JFields.nil, k, v, k', h => by simp [setField, lookupField, h]
  | JFields.cons k0 v0 rest, k, v, k', h => by
      by_cases h0 : k0 = k
      · subst h0; simp [setField, lookupField, h]
      · simp [setField, lookupField, h0, lookup_setField_ne rest k v k' h]

theorem lookup_removeField_self : ∀ (df : JFields) (k : String),
    lookupField (removeField df k) k = none
  | JFields.nil, k => by simp [removeField, lookupField]
  | JFields.cons k0 v0 rest, k => by
      by_cases h : k0 = k <;>
        simp [removeField, lookupField, h, lookup_removeField_self rest k]

theorem lookup_removeField_ne : ∀ (df : JFields) (k k' : String),
    k ≠ k' → lookupField (removeField df k) k' = lookupField df k'
  | JFields.nil, k, k', h => by simp [removeField, lookupField]
  | JFields.cons k0 v0 rest, k, k', h => by
      by_cases h0 : k0 = k
      · subst h0; simp [removeField, lookupField, h, lookup_removeField_ne rest k0 k' h]
      · simp [removeField, lookupField, h0, lookup_removeField_ne rest k k' h]

theorem lookup_applyField_ne (df : JFields) (k : String) (v : JVal) (k' : String)
    (h : k ≠ k') : lookupField (applyField df k v) k' = lookupField df k' := by
  cases v <;> simp [applyField, lookup_setField_ne _ _ _ _ h, lookup_removeField_ne _ _ _ h]

/-- Fields not mentioned in the update are untouched. -/
theorem lookup_applyFields_notmem : ∀ (uf df : JFields) (k : String),
    lookupField uf k = none →
    lookupField (applyFields df uf) k = lookupField df k
  | JFields.nil, df, k, h => by simp [applyFields]
  | JFields.cons k0 v0 rest, df, k, h => by
      simp only [lookupField] at h
      by_cases h0 : k0 = k
      · simp [h0] at h
      · simp only [h0, if_false] at h
        simp only [applyFields]
        rw [lookup_applyFields_notmem rest _ _ h, lookup_applyField_ne _ _ _ _ h0]

/-- A field whose update value is the delete sentinel is absent from the
result (for updates with pairwise-distinct keys). -/
theorem lookup_applyFields_null : ∀ (uf df : JFields) (k : String),
    nodupKeysB uf = true →
    lookupField uf k = some JVal.null →
    lookupField (applyFields df uf) k = none
  | JFields.nil, df, k, _, h => by simp [lookupField] at h
  | JFields.cons k0 v0 rest, df, k, hnd, h => by
      simp only [nodupKeysB, Bool.and_eq_true, Bool.not_eq_true'] at hnd
      simp only [lookupField] at h
      by_cases h0 : k0 = k
      · subst h0
        simp at h
        subst h
        have hrest : lookupField rest k0 = none := by
          cases hl : lookupField rest k0 with
          | none => rfl
          | some v => rw [hl] at hnd; simp [Option.isSome] at hnd
        simp only [applyFields, applyField]
        rw [lookup_applyFields_notmem rest _ _ hrest, lookup_removeField_self]
      · simp only [h0, if_false] at h
        simp only [applyFields]
        exact lookup_applyFields_null rest _ _ hnd.2 h

/-- A field whose update value is a nested mapping is merged recursively
into the existing mapping (for updates with pairwise-distinct keys). -/
theorem lookup_applyFields_obj : ∀ (uf df : JFields) (k : String) (a b : JFields),
    nodupKeysB uf = true →
    lookupField uf k = some (JVal.obj b) →
    lookupField df k = some (JVal.obj a) →
    lookupField (applyFields df uf) k = some (JVal.obj (applyFields a b))
  | JFields.nil, df, k, a, b, _, h, _ => by simp [lookupField] at h
  | JFields.cons k0 v0 rest, df, k, a, b, hnd, h, hd => by
      simp only [nodupKeysB, Bool.and_eq_true, Bool.not_eq_true'] at hnd
      simp only [lookupField] at h
      by_cases h0 : k0 = k
      · subst h0
        simp at h
        subst h
        have hrest : lookupField rest k0 = none := by
          cases hl : lookupField rest k0 with
          | none => rfl
          | some v => rw [hl] at hnd; simp [Option.isSome] at hnd
        simp only [applyFields, applyField]
        rw [lookup_applyFields_notmem rest _ _ hrest, hd]
        simp only [objFieldsOf]
        rw [lookup_setField_self]
      · simp only [h0, if_false] at h
        refine lookup_applyFields_obj rest _ _ _ _ hnd.2 h ?_
        rw [lookup_applyField_ne _ _ _ _ h0, hd]

/-! ## Null-freedom of merged documents (outside sequence values) -/

theorem noNull_lookup : ∀ (df : JFields) (k : String) (v : JVal),
    noNullFields df = true → lookupField df k = some v →
    isNullB v = false ∧ noNullVal v = true
  | JFields.nil, k, v, _, hl => by simp [lookupField] at hl
  | JFields.cons k0 v0 rest, k, v, h, hl => by
      simp only [noNullFields, Bool.and_eq_true, Bool.not_eq_true'] at h
      simp only [lookupField] at hl
      by_cases h0 : k0 = k
      · subst h0
        simp at hl
        subst hl
        exact ⟨h.1.1, h.1.2⟩
      · simp only [h0, if_false] at hl
        exact noNull_lookup rest k v h.2 hl

theorem noNull_removeField : ∀ (df : JFields) (k : String),
    noNullFields df = true → noNullFields (removeField df k) = true
  | JFields.nil, k, h => h
  | JFields.cons k0 v0 rest, k, h => by
      simp only [noNullFields, Bool.and_eq_true] at h
      by_cases h0 : k0 = k <;>
        simp [removeField, noNullFields, h0, h.1, h.2,
          noNull_removeField rest k h.2]

theorem noNull_setField : ∀ (df : JFields) (k : String) (v : JVal),
    noNullFields df = true → isNullB v = false → noNullVal v = true →
    noNullFields (setField df k v) = true
  | JFields.nil, k, v, _, hn, hv => by simp [setField, noNullFields, hn, hv]
  | JFields.cons k0 v0 rest, k, v, h, hn, hv => by
      simp only [noNullFields, Bool.and_eq_true] at h
      by_cases h0 : k0 = k <;>
        simp [setField, noNullFields, h0, h.1, h.2, hn, hv,
          noNull_setField rest k v h.2 hn hv]

/-- The existing field the merge engine recurses into is null-free when
the document is. -/
theorem noNull_objFieldsOf (df : JFields) (k : String)
    (h : noNullFields df = true) :
    noNullFields (objFieldsOf (lookupField df k)) = true := by
  cases hl : lookupField df k with
  | none => simp [objFieldsOf, noNullFields]
  | some v =>
      have hv := (noNull_lookup df k v h hl).2
      cases v <;> simp only [objFieldsOf] <;> first
        | rfl
        | simpa [noNullVal] using hv

mutual
theorem noNull_applyField : ∀ (df : JFields) (k : String) (v : JVal),
    noNullFields df = true → noNullFields (applyField df k v) = true
  | df, k, JVal.null, h => noNull_removeField df k h
  | df, k, JVal.bool b, h => noNull_setField df k (JVal.bool b) h rfl rfl
  | df, k, JVal.num n, h => noNull_setField df k (JVal.num n) h rfl rfl
  | df, k, JVal.str s, h => noNull_setField df k (JVal.str s) h rfl rfl
  | df, k, JVal.arr xs, h => noNull_setField df k (JVal.arr xs) h rfl rfl
  | df, k, JVal.obj vf, h => by
      have hin : noNullFields (applyFields (objFieldsOf (lookupField df k)) vf) = true :=
        noNull_applyFields (objFieldsOf (lookupField df k)) vf (noNull_objFieldsOf df k h)
      simpa only [applyField] using
        noNull_setField df k
          (JVal.obj (applyFields (objFieldsOf (lookupField df k)) vf)) h rfl hin

theorem noNull_applyFields : ∀ (df uf : JFields),
    noNullFields df = true → noNullFields (applyFields df uf) = true
  | df, JFields.nil, h => h
  | df, JFields.cons k v rest, h =>
      noNull_applyFields (applyField df k v) rest (noNull_applyField df k v h)
end

/-! ## Claims C5 and C9: the merge engine -/

/-- C5 (merge correctness, modelled from the spec since the `super-assign`
implementation is not part of the repository): for every document `df` and
update `uf` with pairwise-distinct keys, (a) a field absent from `uf` is
unchanged by the merge, (b) a field set to the delete sentinel `null` in
`uf` is absent from the result, (c) a field whose update value is a nested
mapping is merged recursively into the existing mapping rather than
replacing it wholesale. -/
theorem claim_C5_merge_correctness (df uf : JFields) (k : String)
    (hnd : nodupKeysB uf = true) :
    (lookupField uf k = none →
      lookupField (applyFields df uf) k = lookupField df k)
    ∧ (lookupField uf k = some JVal.null →
      lookupField (applyFields df uf) k = none)
    ∧ (∀ a b : JFields, lookupField uf k = some (JVal.obj b) →
        lookupField df k = some (JVal.obj a) →
        lookupField (applyFields df uf) k = some (JVal.obj (applyFields a b))) :=
  ⟨fun h => lookup_applyFields_notmem uf df k h,
   fun h => lookup_applyFields_null uf df k hnd h,
   fun a b h hd => lookup_applyFields_obj uf df k a b hnd h hd⟩

/-- Witness for C5 on `{keep:1, del:2, nest:{x:3}}` updated with
`{del:null, nest:{y:4}}`: the unmentioned field survives, the deleted one
is gone, the nested one is merged (keeping `x` and adding `y`). -/
theorem claim_C5_witness :
    lookupField (applyFields sampleDoc sampleUpd) "keep"
      = lookupField sampleDoc "keep"
    ∧ lookupField (applyFields sampleDoc sampleUpd) "del" = none
    ∧ lookupField (applyFields sampleDoc sampleUpd) "nest"
      = some (JVal.obj (applyFields
          (JFields.cons "x" (JVal.num 3) JFields.nil)
          (JFields.cons "y" (JVal.num 4) JFields.nil))) :=
  ⟨(claim_C5_merge_correctness sampleDoc sampleUpd "keep" rfl).1 rfl,
   (claim_C5_merge_correctness sampleDoc sampleUpd "del" rfl).2.1 rfl,
   (claim_C5_merge_correctness sampleDoc sampleUpd "nest" rfl).2.2
     (JFields.cons "x" (JVal.num 3) JFields.nil)
     (JFields.cons "y" (JVal.num 4) JFields.nil) rfl rfl⟩

/-- C9 counterexample: the claim says no update can ever set a field of
the stored document to hold `null`. But a sequence value is replaced
wholesale without sentinel processing, so updating the empty document with
`{a: [{b: null}]}` produces a document in which the object field `b`
(inside the array) holds the value `null`. -/
theorem claim_C9_counterexample :
    containsNull (JVal.obj JFields.nil) = false
    ∧ containsNull (JVal.obj (applyFields JFields.nil nullInArrayUpd)) = true :=
  ⟨rfl, rfl⟩

/-- C9 as amended (modelled from the spec, see `applyField`): the delete
sentinel is `null` and a field of the update holding `null` is removed
from the document; consequently no update ever sets a field reachable
through mappings alone to `null` — null values can enter the stored
document only inside sequence values, which are copied wholesale. -/
theorem claim_C9_null_sentinel (df uf : JFields) (k : String) :
    (nodupKeysB uf = true → lookupField uf k = some JVal.null →
      lookupField (applyFields df uf) k = none)
    ∧ (noNullFields df = true → noNullFields (applyFields df uf) = true) :=
  ⟨fun hnd h => lookup_applyFields_null uf df k hnd h,
   fun h => noNull_applyFields df uf h⟩

/-- Witness for C9: on `{keep:1, del:2, nest:{x:3}}` with update
`{del:null, nest:{y:4}}`, the null-valued field is removed and the merged
document stays null-free on mapping paths. -/
theorem claim_C9_witness :
    lookupField (applyFields sampleDoc sampleUpd) "del" = none
    ∧ noNullFields (applyFields sampleDoc sampleUpd) = true :=
  ⟨(claim_C9_null_sentinel sampleDoc sampleUpd "del").1 rfl rfl,
   (claim_C9_null_sentinel sampleDoc sampleUpd "del").2 rfl⟩

/-! ## Claims C2, C3 (counterexample) and C4: concrete scheduler runs -/

/-- C2 counterexample: on a freshly constructed store (`lastSync = 0`)
with `syncThrottleMs = 100`, the first `update({a:1})` finds the throttle
window long elapsed (`waitTime = 0 + 100 - 1000 < 0`) and starts a write
immediately, so the scenario `update({a:1}); update({a:2,b:3}); flush()`
performs exactly two writes, not one. -/
theorem claim_C2_counterexample :
    (startsOf (run freshDb scenarioC2).2).length = 2
    ∧ ¬ (startsOf (run freshDb scenarioC2).2).length = 1 :=
  ⟨rfl, by decide⟩

/-- C2 as amended: the scenario performs exactly two writes — the first
(started by the first `update`) writes `{a:1}`; the second `update` and the
`flush` coalesce into one batch (batch 0, urgency made sticky by the
flush), which executes as the single additional write right after the
first completes and writes `{a:2,b:3}`; the promise returned by `flush`
(batch 0's deferred) resolves only after that second write completes — its
settlement is the last observable event. The store really is the one a
fresh construction produces. -/
theorem claim_C2_coalescing :
    mkDb throttledOpts 900 none = Except.ok freshDb
    ∧ (run freshDb scenarioC2).2 =
      [LogEntry.writeStart 1000 false (JVal.obj updA1) none,
       LogEntry.flushRet (StoreRet.attached 0),
       LogEntry.writeEnd 1010 true,
       LogEntry.writeStart 1010 true (JVal.obj updA2B3) (some 0),
       LogEntry.writeEnd 1020 true,
       LogEntry.settle 0 true]
    ∧ (run freshDb scenarioC2).1.payload = JVal.obj updA2B3 :=
  ⟨rfl, rfl, rfl⟩

/-- C3 counterexample: two consecutive non-urgent writes where the second
starts 50ms after the first completes, with `syncThrottleMs = 100`. The
wait `lastSync + syncThrottle - now` is anchored to `lastSync`, which
`sync()` sets at the START of the previous write (1000), not at its
completion (1050), so the update at 1100 starts a write immediately:
completion-to-start spacing is 50 < 100. -/
theorem claim_C3_counterexample :
    freshDb.throttle = 100
    ∧ (run freshDb scenarioC3).2 =
      [LogEntry.writeStart 1000 false (JVal.obj updA1) none,
       LogEntry.writeEnd 1050 true,
       LogEntry.writeStart 1100 false (JVal.obj updA2B3) none,
       LogEntry.writeEnd 1150 true]
    ∧ ((1100 : Int) - 1050 < 100) :=
  ⟨rfl, rfl, by decide⟩

/-- C4 (code bug): a `flush()` on an idle store with no pending batch
executes the write directly with no `ScheduledSync` ticket attached
(`batch = none`). When `writeFile` then fails, the `catch` in `store` only
calls `scheduled?.reject(error)` on the detached ticket — which does not
exist — and `store`'s own promise, the one `flush` awaits (`started`),
resolves normally. The run shows the failed write (`writeEnd 1010 false`)
settles no deferred at all: the I/O failure is silently swallowed, against
the claim (and `flush`'s own doc comment). -/
theorem claim_C4_flush_error_swallowed :
    (run freshDb scenarioC4).2 =
      [LogEntry.writeStart 1000 true (JVal.obj JFields.nil) none,
       LogEntry.flushRet StoreRet.started,
       LogEntry.writeEnd 1010 false]
    ∧ settlesOf (run freshDb scenarioC4).2 = [] :=
  ⟨rfl, rfl⟩

/-! ## Invariants of the scheduler state machine -/

theorem startsOf_append : ∀ (l1 l2 : List LogEntry),
    startsOf (l1 ++ l2) = startsOf l1 ++ startsOf l2
  | [], l2 => rfl
  | e :: rest, l2 => by
      cases e <;> simp [startsOf, startsOf_append rest l2]

/-- A `store` call leaves the throttle, the creation time, the payload and
`lastUpdate` untouched. -/
theorem storeCall_preserves (u : Bool) (n : Int) (s : Db) :
    (storeCall u n s).1.throttle = s.throttle
    ∧ (storeCall u n s).1.meta.createTime = s.meta.createTime
    ∧ (storeCall u n s).1.payload = s.payload
    ∧ (storeCall u n s).1.meta.lastUpdate = s.meta.lastUpdate := by
  unfold storeCall execWrite
  cases s.writing <;> cases s.scheduled <;> simp
  all_goals (split <;> simp)
  all_goals (split <;> simp)

/-- Any event leaves the throttle and the creation time untouched. -/
theorem step_preserves (s : Db) (e : Ev) :
    (step s e).1.throttle = s.throttle
    ∧ (step s e).1.meta.createTime = s.meta.createTime := by
  cases e with
  | update uf now =>
      have h := storeCall_preserves false now
        { s with payload := applyToPayload s.payload uf,
                 meta := { s.meta with lastUpdate := now } }
      exact ⟨h.1, h.2.1⟩
  | flush now =>
      have h := storeCall_preserves true now s
      exact ⟨h.1, h.2.1⟩
  | timer now =>
      have h := storeCall_preserves false now s
      exact ⟨h.1, h.2.1⟩
  | complete ok now =>
      cases hw : s.writing with
      | none => simp [step, hw]
      | some w =>
          cases hsch : s.scheduled with
          | none => simp [step, hw, hsch]
          | some sch =>
              by_cases hd : sch.doItNow
              · have h := storeCall_preserves true now { s with writing := none }
                rw [hsch] at h
                simp only [] at h
                simp [step, hw, hsch, hd]
                exact ⟨h.1, h.2.1⟩
              · by_cases ht : sch.timer = none <;> simp [step, hw, hsch, hd, ht]

/-- A `store` call either starts no write (and leaves `lastSync` alone),
or starts exactly one write at its own wall-clock time `n`, stamping
`lastSync := n`; a non-urgent call can only start a write once the
throttle window has elapsed (`lastSync + syncThrottle ≤ n`). -/
theorem storeCall_starts (u : Bool) (n : Int) (s : Db) :
    (startsOf (storeCall u n s).2.2 = []
      ∧ (storeCall u n s).1.meta.lastSync = s.meta.lastSync)
    ∨ (startsOf (storeCall u n s).2.2 = [(n, u)]
      ∧ (storeCall u n s).1.meta.lastSync = n
      ∧ (u = false → s.meta.lastSync + s.throttle ≤ n)) := by
  unfold storeCall execWrite
  cases s.writing <;> cases s.scheduled <;> simp [startsOf]
  · by_cases hu : u = true
    · subst hu
      simp [startsOf]
    · simp only [hu, if_false]
      by_cases hwt : n < s.meta.lastSync + s.throttle
      · simp [startsOf, hwt]
      · simp [startsOf, hwt, hu]
        omega
  · by_cases hu : u = true
    · subst hu
      simp [startsOf]
    · simp [hu, startsOf]

/-- One event of the state machine either starts no write and leaves
`lastSync` alone, or starts exactly one write, stamps `lastSync` with its
start time, and — when the triggering `store` call was non-urgent — only
does so past the throttle window measured from the previous `lastSync`. -/
theorem step_starts (s : Db) (e : Ev) :
    (startsOf (step s e).2 = []
      ∧ (step s e).1.meta.lastSync = s.meta.lastSync)
    ∨ (∃ t u1, startsOf (step s e).2 = [(t, u1)]
      ∧ (step s e).1.meta.lastSync = t
      ∧ (u1 = false → s.meta.lastSync + s.throttle ≤ t)) := by
  cases e with
  | update uf now =>
      rcases storeCall_starts false now
          { s with payload := applyToPayload s.payload uf,
                   meta := { s.meta with lastUpdate := now } } with
        ⟨h1, h2⟩ | ⟨h1, h2, h3⟩
      · exact Or.inl ⟨h1, h2⟩
      · exact Or.inr ⟨now, false, h1, h2, h3⟩
  | flush now =>
      rcases storeCall_starts true now s with ⟨h1, h2⟩ | ⟨h1, h2, h3⟩
      · exact Or.inl
          ⟨by simp [step, startsOf_append, h1, startsOf], by simpa [step] using h2⟩
      · exact Or.inr ⟨now, true,
          by simp [step, startsOf_append, h1, startsOf], by simpa [step] using h2, h3⟩
  | timer now =>
      rcases storeCall_starts false now s with ⟨h1, h2⟩ | ⟨h1, h2, h3⟩
      · exact Or.inl ⟨h1, h2⟩
      · exact Or.inr ⟨now, false, h1, h2, h3⟩
  | complete ok now =>
      cases hw : s.writing with
      | none => exact Or.inl ⟨by simp [step, hw, startsOf], by simp [step, hw]⟩
      | some w =>
          cases hsch : s.scheduled with
          | none =>
              refine Or.inl ⟨?_, ?_⟩ <;> cases hb : w.batch <;>
                simp [step, hw, hsch, hb, startsOf]
          | some sch =>
              by_cases hd : sch.doItNow
              · refine Or.inr ⟨now, true, ?_, ?_, fun hcon => by simp at hcon⟩
                · cases hb : w.batch <;>
                    simp [step, hw, hsch, hd, hb, storeCall, execWrite,
                      startsOf_append, startsOf]
                · cases hb : w.batch <;>
                    simp [step, hw, hsch, hd, hb, storeCall, execWrite]
              · by_cases ht : sch.timer = none <;>
                  refine Or.inl ⟨?_, ?_⟩ <;> cases hb : w.batch <;>
                    simp [step, hw, hsch, hd, ht, hb, startsOf]

/-- Along any run, every non-urgent write start is at least one throttle
interval after the preceding write start (represented by `p`, a lower
bound of the current `lastSync`). -/
theorem run_gapFrom : ∀ (evs : List Ev) (s : Db) (p : Int),
    p ≤ s.meta.lastSync →
    gapFromB s.throttle p (startsOf (run s evs).2) = true
  | [], s, p, hp => rfl
  | e :: rest, s, p, hp => by
      have hpre := step_preserves s e
      have hrw : (run s (e :: rest)).2 = (step s e).2 ++ (run (step s e).1 rest).2 := rfl
      rcases step_starts s e with ⟨h1, h2⟩ | ⟨t, u1, h1, h2, h3⟩
      · have ih := run_gapFrom rest (step s e).1 p (by rw [h2]; exact hp)
        rw [hrw, startsOf_append, h1, List.nil_append]
        rw [hpre.1] at ih
        exact ih
      · have ih := run_gapFrom rest (step s e).1 t (le_of_eq h2.symm)
        rw [hrw, startsOf_append, h1, List.cons_append, List.nil_append]
        rw [hpre.1] at ih
        simp only [gapFromB, Bool.and_eq_true]
        refine ⟨?_, ih⟩
        cases u1 with
        | true => simp
        | false =>
            have hth := h3 rfl
            simp only [Bool.false_or, decide_eq_true_eq]
            omega

/-- C3 as amended: the throttle lower bound of the scheduler is anchored
to the START of the previous write, not to its completion: `sync()` sets
`lastSync = Date.now()` as its first synchronous statement, before
`writeFile` is awaited (see `execWrite`), so along every run every
non-urgent write starts at least `syncThrottleMs` after the START of the
write before it (start-to-start spacing, any urgency for the earlier
write). The completion-to-start spacing of the original claim can be as
small as the write duration allows (`claim_C3_counterexample`). -/
theorem claim_C3_throttle_anchor (s : Db) (evs : List Ev) :
    gapChainB s.throttle (startsOf (run s evs).2) = true := by
  cases hl : startsOf (run s evs).2 with
  | nil => simp [gapChainB]
  | cons td rest =>
      obtain ⟨t, u⟩ := td
      have h := run_gapFrom evs s s.meta.lastSync le_rfl
      rw [hl] at h
      simp only [gapFromB, Bool.and_eq_true] at h
      simpa only [gapChainB] using h.2

/-- Any single event starts at most one write. -/
theorem step_starts_length (s : Db) (e : Ev) :
    (startsOf (step s e).2).length ≤ 1 := by
  rcases step_starts s e with ⟨h1, _⟩ | ⟨t, u1, h1, _, _⟩ <;> simp [h1]

/-- While a write is in flight and a ticket exists, further `store` calls
only merge urgency into that single ticket: the write in flight, the
ticket's batch and the log are untouched, and every caller gets the
ticket's shared promise. -/
theorem applyReqs_scheduled : ∀ (reqs : List (Bool × Int)) (s : Db) (w : Flight)
    (sch : Sched), s.writing = some w → s.scheduled = some sch →
    (applyReqs s reqs).1.writing = some w
    ∧ (∃ sch', (applyReqs s reqs).1.scheduled = some sch' ∧ sch'.batch = sch.batch)
    ∧ (∀ r ∈ (applyReqs s reqs).2.1, r = StoreRet.attached sch.batch)
    ∧ (applyReqs s reqs).2.2 = []
  | [], s, w, sch, hw, hsch => by
      refine ⟨hw, ⟨sch, hsch, rfl⟩, ?_, rfl⟩
      intro r hr
      simp [applyReqs] at hr
  | (u, n) :: rest, s, w, sch, hw, hsch => by
      have hstep : storeCall u n s =
          ({ s with scheduled := some { sch with doItNow := sch.doItNow || u } },
           StoreRet.attached sch.batch, ([] : List LogEntry)) := by
        simp [storeCall, hw, hsch]
      have ih := applyReqs_scheduled rest
        { s with scheduled := some { sch with doItNow := sch.doItNow || u } }
        w { sch with doItNow := sch.doItNow || u } hw rfl
      simp only [applyReqs, hstep]
      refine ⟨ih.1, ?_, ?_, ?_⟩
      · obtain ⟨sch', ha, hb⟩ := ih.2.1
        exact ⟨sch', ha, hb⟩
      · intro r hr
        rcases List.mem_cons.mp hr with h | h
        · exact h
        · exact ih.2.2.1 r h
      · simpa using ih.2.2.2

/-- C1 (at-most-one-write / coalescing): the model's `scheduled` and
`writing` are single optional slots, mirroring the source's lone
`scheduled` field and boolean `writing` flag, so there is never more than
one pending ticket nor more than one write in flight. Behaviourally: for
any sequence of `update`/`flush`-induced `store` calls issued while a
write is in flight, the in-flight write is untouched, no new write starts
and nothing is logged, all callers receive the shared promise of one
single batch, and once the in-flight write completes at most one
additional write starts. -/
theorem claim_C1_single_writer (s : Db) (w : Flight) (hw : s.writing = some w)
    (reqs : List (Bool × Int)) :
    (applyReqs s reqs).1.writing = some w
    ∧ (applyReqs s reqs).2.2 = []
    ∧ (∃ b, ∀ r ∈ (applyReqs s reqs).2.1, r = StoreRet.attached b)
    ∧ ∀ ok now,
        (startsOf (step (applyReqs s reqs).1 (Ev.complete ok now)).2).length ≤ 1 := by
  cases reqs with
  | nil =>
      refine ⟨hw, rfl, ⟨0, ?_⟩, fun ok now => step_starts_length _ _⟩
      intro r hr
      simp [applyReqs] at hr
  | cons req rest =>
      obtain ⟨u, n⟩ := req
      cases hsch : s.scheduled with
      | some sch =>
          have h := applyReqs_scheduled ((u, n) :: rest) s w sch hw hsch
          exact ⟨h.1, h.2.2.2, ⟨sch.batch, h.2.2.1⟩,
            fun ok now => step_starts_length _ _⟩
      | none =>
          have hstep : storeCall u n s =
              ({ s with scheduled := some { timer := none, doItNow := u, batch := s.nextBatch }
                        nextBatch := s.nextBatch + 1 },
               StoreRet.attached s.nextBatch, ([] : List LogEntry)) := by
            simp [storeCall, hw, hsch]
          have ih := applyReqs_scheduled rest
            { s with scheduled := some { timer := none, doItNow := u, batch := s.nextBatch }
                     nextBatch := s.nextBatch + 1 }
            w { timer := none, doItNow := u, batch := s.nextBatch } hw rfl
          simp only [applyReqs, hstep]
          refine ⟨ih.1, by simpa using ih.2.2.2, ⟨s.nextBatch, ?_⟩,
            fun ok now => step_starts_length _ _⟩
          intro r hr
          rcases List.mem_cons.mp hr with h | h
          · exact h
          · exact ih.2.2.1 r h

/-- Witness for C1: a store with a write in flight receives a plain
update and an urgent flush; both coalesce into one batch, nothing new is
written until the completion event, which starts at most one write. -/
theorem claim_C1_witness :
    (applyReqs busyDb busyReqs).1.writing
      = some { content := JVal.obj JFields.nil, batch := none, start := 950 }
    ∧ (applyReqs busyDb busyReqs).2.2 = []
    ∧ (∃ b, ∀ r ∈ (applyReqs busyDb busyReqs).2.1, r = StoreRet.attached b)
    ∧ (startsOf (step (applyReqs busyDb busyReqs).1 (Ev.complete true 1010)).2).length ≤ 1 :=
  have h := claim_C1_single_writer busyDb
    { content := JVal.obj JFields.nil, batch := none, start := 950 } rfl busyReqs
  ⟨h.1, h.2.1, h.2.2.1, h.2.2.2 true 1010⟩

/-- No event ever changes `meta.createTime`. -/
theorem run_createTime : ∀ (evs : List Ev) (s : Db),
    (run s evs).1.meta.createTime = s.meta.createTime
  | [], s => rfl
  | e :: rest, s => by
      have h := (step_preserves s e).2
      have ih := run_createTime rest (step s e).1
      calc (run s (e :: rest)).1.meta.createTime
          = (run (step s e).1 rest).1.meta.createTime := rfl
        _ = (step s e).1.meta.createTime := ih
        _ = s.meta.createTime := h

/-- C8 (successful load and createTime permanence): constructing a store
over a file holding a valid stored record `{meta: {createTime: ct,
lastUpdate: lu, lastSync: ls}, data: d}` yields, once the initial load
resolves, a state whose document is the stored `d` and whose
`meta.createTime` is the stored `ct` (the spec's instance is `ct = lu =
ls = 1`, `d = {x: 5}`); and no later sequence of events (updates, flushes,
timers, write completions) ever changes `createTime` again. -/
theorem claim_C8_load_createTime (opts : InitOpts) (now ct lu ls : Int) (d : JVal) :
    mkDb opts now (some (some (storedRaw ct lu ls d)))
      = Except.ok (loadedDb opts ct lu ls d)
    ∧ (loadedDb opts ct lu ls d).payload = d
    ∧ (loadedDb opts ct lu ls d).meta.createTime = ct
    ∧ ∀ evs, (run (loadedDb opts ct lu ls d) evs).1.meta.createTime = ct :=
  ⟨rfl, rfl, rfl, fun evs => run_createTime evs (loadedDb opts ct lu ls d)⟩

/-- C6 (corrupt-load downgrade): when the file exists but its content
either fails `JSON.parse` or fails `isValidData` (including the TypeError
the validator throws on records without a `meta` object, such as
`{notMeta: true}`), the load returns absent without raising, and the
constructed store is exactly the one a missing file produces: its document
is `initialData`. -/
theorem claim_C6_corrupt_load (opts : InitOpts) (fc : Option JVal) (now : Int)
    (hflag : opts.throwIfNotExists = false) (hbad : parsedOk fc = false) :
    readDb opts (some fc) = Except.ok none
    ∧ mkDb opts now (some fc) = mkDb opts now none
    ∧ mkDb opts now (some fc) = Except.ok
        { throttle := opts.syncThrottle
          payload := JVal.obj (opts.initialData.getD JFields.nil)
          meta := { createTime := now, lastUpdate := 0, lastSync := 0 }
          writing := none
          scheduled := none
          nextBatch := 0 } := by
  have hread : readDb opts (some fc) = Except.ok none := by
    cases fc with
    | none => rfl
    | some raw =>
        cases hv : isValidData raw with
        | error e => simp [readDb, hv]
        | ok b =>
            cases b with
            | false => simp [readDb, hv]
            | true =>
                exfalso
                simp [parsedOk, hv] at hbad
  have hnone : readDb opts none = Except.ok none := by
    simp [readDb, hflag]
  refine ⟨hread, ?_, ?_⟩
  · simp [mkDb, hread, hnone]
  · simp [mkDb, hread]

/-- Witness for C6: the spec's corrupt file `{notMeta: true}`. -/
theorem claim_C6_witness :
    readDb throttledOpts (some (some notMetaRaw)) = Except.ok none
    ∧ mkDb throttledOpts 900 (some (some notMetaRaw)) = mkDb throttledOpts 900 none
    ∧ mkDb throttledOpts 900 (some (some notMetaRaw)) = Except.ok
        { throttle := throttledOpts.syncThrottle
          payload := JVal.obj (throttledOpts.initialData.getD JFields.nil)
          meta := { createTime := 900, lastUpdate := 0, lastSync := 0 }
          writing := none
          scheduled := none
          nextBatch := 0 } :=
  claim_C6_corrupt_load throttledOpts (some notMetaRaw) 900 rfl rfl

/-- C7 (urgent bypass and promotion): (i) an urgent `store` call on an
idle store executes the write at its own wall-clock instant, with no
timer and no ticket (urgency forces `waitTime = 0`, so this holds whether
or not the throttle window has elapsed); (ii) an urgent call while a
non-urgent ticket is armed detaches and executes that very ticket
immediately — its batch rides on the started write, no second ticket is
ever created (`nextBatch` does not move); (iii) an urgent call while a
write is in flight and a ticket exists merges stickily into it
(`doItNow := true`), returns the ticket's shared promise and again mints
no new ticket. -/
theorem claim_C7_urgent_bypass (pl : JVal) (m : Meta) (nb : Nat) (thr now : Int)
    (sch : Sched) (w : Flight) :
    (storeCall true now (idleDb pl m nb thr)
      = (directWritingDb pl m nb thr now, StoreRet.started,
         [LogEntry.writeStart now true pl none]))
    ∧ (storeCall true now { idleDb pl m nb thr with scheduled := some sch }
      = ({ directWritingDb pl m nb thr now with
            writing := some { content := pl, batch := some sch.batch, start := now } },
         StoreRet.started,
         [LogEntry.writeStart now true pl (some sch.batch)]))
    ∧ (storeCall true now
          { idleDb pl m nb thr with writing := some w, scheduled := some sch }
      = ({ idleDb pl m nb thr with writing := some w, scheduled := some { sch with doItNow := true } },
         StoreRet.attached sch.batch, [])) := by
  refine ⟨rfl, rfl, ?_⟩
  simp [storeCall, idleDb]

/-- C10 (lastSync advances even on failure): `sync()` stamps
`meta.lastSync` with the wall-clock time at the START of the write
attempt, synchronously before `writeFile` is awaited; a failing
completion does not roll it back; and the next non-urgent `store` call
issued before `lastSync + syncThrottle` does not start a write — it arms
a ticket — so the throttle is measured relative to the failed attempt. -/
theorem claim_C10_lastSync_on_failure (pl : JVal) (m : Meta) (nb : Nat)
    (thr now now2 now3 : Int) (h : now3 < now + thr) :
    (storeCall true now (idleDb pl m nb thr)).1.meta.lastSync = now
    ∧ step (directWritingDb pl m nb thr now) (Ev.complete false now2)
      = (afterWriteDb pl m nb thr now, [LogEntry.writeEnd now2 false])
    ∧ (afterWriteDb pl m nb thr now).meta.lastSync = now
    ∧ (storeCall false now3 (afterWriteDb pl m nb thr now)).1.writing = none
    ∧ (storeCall false now3 (afterWriteDb pl m nb thr now)).2.1
        = StoreRet.attached nb
    ∧ startsOf (storeCall false now3 (afterWriteDb pl m nb thr now)).2.2 = [] := by
  refine ⟨rfl, rfl, rfl, ?_, ?_, ?_⟩ <;>
    simp [storeCall, afterWriteDb, startsOf, h]

/-- Witness for C10: a failed write started at 1000 with throttle 100; the
non-urgent attempt at 1050 is throttled. -/
theorem claim_C10_witness :
    (storeCall true 1000
        (idleDb (JVal.obj JFields.nil) { createTime := 900, lastUpdate := 0, lastSync := 0 }
          0 100)).1.meta.lastSync = 1000
    ∧ step (directWritingDb (JVal.obj JFields.nil)
          { createTime := 900, lastUpdate := 0, lastSync := 0 } 0 100 1000)
        (Ev.complete false 1010)
      = (afterWriteDb (JVal.obj JFields.nil)
          { createTime := 900, lastUpdate := 0, lastSync := 0 } 0 100 1000,
         [LogEntry.writeEnd 1010 false])
    ∧ (afterWriteDb (JVal.obj JFields.nil)
        { createTime := 900, lastUpdate := 0, lastSync := 0 } 0 100 1000).meta.lastSync = 1000
    ∧ (storeCall false 1050 (afterWriteDb (JVal.obj JFields.nil)
        { createTime := 900, lastUpdate := 0, lastSync := 0 } 0 100 1000)).1.writing = none
    ∧ (storeCall false 1050 (afterWriteDb (JVal.obj JFields.nil)
        { createTime := 900, lastUpdate := 0, lastSync := 0 } 0 100 1000)).2.1
        = StoreRet.attached 0
    ∧ startsOf (storeCall false 1050 (afterWriteDb (JVal.obj JFields.nil)
        { createTime := 900, lastUpdate := 0, lastSync := 0 } 0 100 1000)).2.2 = [] :=
  claim_C10_lastSync_on_failure (JVal.obj JFields.nil)
    { createTime := 900, lastUpdate := 0, lastSync := 0 } 0 100 1000 1010 1050 (by decide)

end JsonDbModel
